import Mathlib

/-!
Shallow embedding of the BrickCharts cache and search core
(`src/data/ChartCache.ts`, `src/search/SearchEngine.ts`, `src/types.ts`).

Conventions of the embedding:
* JavaScript strings are `List Char` (`Str`); `String.prototype.toLowerCase`
  is the per-character case map.
* JavaScript `Date` values are `Int` milliseconds since the epoch; every
  operation that reads `Date.now()` takes the current time as an explicit
  `now : Int` argument.
* JavaScript numbers used for scores and confidences are `ℚ` (exact
  rationals standing for the real-number semantics of the formulas).
* A JavaScript `Map` is an association list in insertion order with unique
  keys; `localStorage` is a second association list.  The date round-trip
  through `JSON.stringify`/`new Date(...)` is lossless on epoch
  milliseconds, so serialization is the identity here.
* JavaScript truthiness is modelled explicitly: an optional string is
  truthy when present and nonempty, an optional number when present and
  nonzero.
-/

namespace BrickCharts

/-- JavaScript strings, as lists of characters. -/
abbrev Str := List Char

/-- `String.prototype.toLowerCase`, restricted to its per-character case map. -/
def toLowerStr (s : Str) : Str := s.map Char.toLower

/-- Truthiness of an optional JS string: `undefined` and the empty string are
falsy.  Returns the string itself when truthy, so call sites can keep using
the value exactly as the TypeScript guards do. -/
def getTruthy (o : Option Str) : Option Str :=
  match o with
  | some s => if s.isEmpty then none else some s
  | none => none

/-- Truthiness of an optional JS number: `undefined` and `0` are falsy. -/
def numTruthy (o : Option Nat) : Bool :=
  match o with
  | some n => n != 0
  | none => false

/-- `ChartSource` enum from `types.ts` (`billboard`, `lastfm`, `custom`);
all three enum values are nonempty strings, hence always truthy. -/
inductive ChartSource where
  | billboard
  | lastfm
  | custom
deriving DecidableEq

/-- `ChartEntry` from `types.ts`.  The open `metadata` bag is never consulted
by the cache or the search engine and is omitted. -/
structure ChartEntry where
  rank : Nat
  title : Str
  artist : Str
  album : Option Str := none
  label : Option Str := none
  lastWeek : Option Nat := none
  peakPosition : Option Nat := none
  weeksOnChart : Option Nat := none
  chartDate : Int := 0
  source : ChartSource := ChartSource.billboard
deriving DecidableEq

/-- `ChartData` from `types.ts` (metadata bag omitted, unused by the core). -/
structure ChartData where
  chartType : Str := []
  date : Int := 0
  entries : List ChartEntry := []
  source : ChartSource := ChartSource.billboard
  totalEntries : Nat := 0
deriving DecidableEq

instance : Inhabited ChartEntry := ⟨{ rank := 0, title := [], artist := [] }⟩

instance : Inhabited ChartData := ⟨{}⟩

/-- Inclusive numeric range used by `rankRange`, `weeksRange`, `peakRange`. -/
structure NumRange where
  min : Nat
  max : Nat
deriving DecidableEq

/-- `dateRange` of a query; the source calls the second field `end`
(a Lean keyword), renamed `stop`. -/
structure DateRange where
  start : Int
  stop : Int
deriving DecidableEq

/-- `SearchQuery` from `SearchEngine.ts`.  Optional booleans collapse to
`Bool` (absent ≡ `false`, exactly their JS truthiness). -/
structure SearchQuery where
  title : Option Str := none
  artist : Option Str := none
  album : Option Str := none
  chartType : Option Str := none
  source : Option ChartSource := none
  dateRange : Option DateRange := none
  rankRange : Option NumRange := none
  weeksRange : Option NumRange := none
  peakRange : Option NumRange := none
  newEntriesOnly : Bool := false
  fuzzy : Bool := false
  limit : Option Nat := none
deriving DecidableEq

/-- Match kinds of `SearchMatch.matchType` (`exact` / `partial` / `fuzzy`). -/
inductive MatchType where
  | exact
  | partialM
  | fuzzy
deriving DecidableEq

/-- Field tag of a `SearchMatch`. -/
inductive MatchField where
  | title
  | artist
  | album
deriving DecidableEq

/-- `SearchMatch` from `SearchEngine.ts`. -/
structure SearchMatch where
  field : MatchField
  value : Str
  matchType : MatchType
  confidence : ℚ
deriving DecidableEq

/-- `SearchResult` from `SearchEngine.ts`. -/
structure SearchResult where
  entry : ChartEntry
  chartData : ChartData
  score : ℚ
  matchList : List SearchMatch
deriving DecidableEq

/-- The Levenshtein recurrence computed by `calculateSimilarity`'s
dynamic-programming matrix, written with a fuel argument so that the
definition is structurally recursive (and hence kernel-evaluable).
`levFuel` is only ever applied with fuel at least the sum of the two
lengths, which makes the fuel-exhausted branch unreachable. -/
def levFuel : Nat → Str → Str → Nat
  | _, [], s2 => s2.length
  | _, s1, [] => s1.length
  | 0, _, _ => 0
  | n + 1, x :: s1, y :: s2 =>
    if x = y then levFuel n s1 s2
    else 1 + min (levFuel n s1 s2) (min (levFuel n (x :: s1) s2) (levFuel n s1 (y :: s2)))

/-- Levenshtein edit distance: the value `matrix[str2.length][str1.length]`
computed by `calculateSimilarity`'s DP loop. -/
def levenshtein (s1 s2 : Str) : Nat := levFuel (s1.length + s2.length) s1 s2

/-- `SearchEngine.calculateSimilarity`: normalized Levenshtein similarity,
`1` when both strings are empty. -/
def calculateSimilarity (str1 str2 : Str) : ℚ :=
  let distance := levenshtein str1 str2
  let maxLength := max str1.length str2.length
  if maxLength = 0 then 1 else ((maxLength : ℚ) - (distance : ℚ)) / (maxLength : ℚ)

/-- `SearchEngine.matchText`: exact, then substring (`includes`), then — when
`fuzzy` is requested — Levenshtein similarity with threshold `0.6`. -/
def matchText (text query : Str) (fuzzy : Bool) : Option (MatchType × ℚ) :=
  let lowerText := toLowerStr text
  let lowerQuery := toLowerStr query
  if lowerText = lowerQuery then some (MatchType.exact, 1)
  else if lowerQuery <:+: lowerText then
    some (MatchType.partialM, (lowerQuery.length : ℚ) / (lowerText.length : ℚ))
  else if fuzzy then
    let similarity := calculateSimilarity lowerText lowerQuery
    if (3 : ℚ) / 5 < similarity then some (MatchType.fuzzy, similarity) else none
  else none

/-- Guard `query.rankRange && (entry.rank < min || entry.rank > max)` of
`scoreEntry` (a present `rankRange` object is always truthy). -/
def rankRejects (query : SearchQuery) (entry : ChartEntry) : Bool :=
  match query.rankRange with
  | some r => entry.rank < r.min || r.max < entry.rank
  | none => false

/-- Guard `query.weeksRange && entry.weeksOnChart` followed by the bound
check: note the JS truthiness test on the number `entry.weeksOnChart`, which
skips the filter when the field is absent or `0`. -/
def weeksRejects (query : SearchQuery) (entry : ChartEntry) : Bool :=
  match query.weeksRange, entry.weeksOnChart with
  | some r, some w => w != 0 && (w < r.min || r.max < w)
  | _, _ => false

/-- Guard `query.peakRange && entry.peakPosition`, same truthiness pattern. -/
def peakRejects (query : SearchQuery) (entry : ChartEntry) : Bool :=
  match query.peakRange, entry.peakPosition with
  | some r, some p => p != 0 && (p < r.min || r.max < p)
  | _, _ => false

/-- Guard `query.newEntriesOnly && entry.lastWeek` (`lastWeek: 0` is falsy). -/
def newEntriesRejects (query : SearchQuery) (entry : ChartEntry) : Bool :=
  query.newEntriesOnly && numTruthy entry.lastWeek

/-- Recency boost of `scoreEntry`:
`Math.max(0, (30 - daysSinceChart) / 30)` with
`daysSinceChart = (now - chart.date) / (1000*60*60*24)`. -/
def recencyBoost (chart : ChartData) (now : Int) : ℚ :=
  let daysSinceChart : ℚ := ((now : ℚ) - (chart.date : ℚ)) / (1000 * 60 * 60 * 24)
  max 0 ((30 - daysSinceChart) / 30)

/-- `SearchEngine.scoreEntry`.  The imperative `score`/`matches` accumulation
is threaded explicitly; each `return null` of the source becomes `none`.
The title step yields its weighted contribution or rejects; the artist step
likewise, except that under strict matching an artist miss only rejects when
the query's `title` is falsy; the album step never rejects. -/
def scoreEntry (entry : ChartEntry) (chart : ChartData) (query : SearchQuery) (now : Int) :
    Option SearchResult :=
  if rankRejects query entry then none
  else if weeksRejects query entry then none
  else if peakRejects query entry then none
  else if newEntriesRejects query entry then none
  else
    let titleStep : Option (ℚ × List SearchMatch) :=
      match getTruthy query.title with
      | none => some (0, [])
      | some t =>
        match matchText entry.title t query.fuzzy with
        | some m =>
          some (m.2 * 3,
            [{ field := MatchField.title, value := entry.title,
               matchType := m.1, confidence := m.2 }])
        | none => if query.fuzzy then some (0, []) else none
    match titleStep with
    | none => none
    | some acc1 =>
      let artistStep : Option (ℚ × List SearchMatch) :=
        match getTruthy query.artist with
        | none => some (0, [])
        | some a =>
          match matchText entry.artist a query.fuzzy with
          | some m =>
            some (m.2 * 2,
              [{ field := MatchField.artist, value := entry.artist,
                 matchType := m.1, confidence := m.2 }])
          | none =>
            if !query.fuzzy && (getTruthy query.title).isNone then none
            else some (0, [])
      match artistStep with
      | none => none
      | some acc2 =>
        let albumStep : ℚ × List SearchMatch :=
          match getTruthy query.album, getTruthy entry.album with
          | some a, some ea =>
            match matchText ea a query.fuzzy with
            | some m =>
              (m.2 * 1,
                [{ field := MatchField.album, value := ea,
                   matchType := m.1, confidence := m.2 }])
            | none => (0, [])
          | _, _ => (0, [])
        let score : ℚ :=
          acc1.1 + acc2.1 + albumStep.1
            + ((101 : ℚ) - (entry.rank : ℚ)) / 100 + recencyBoost chart now
        let matchList : List SearchMatch := acc1.2 ++ acc2.2 ++ albumStep.2
        if score = 0 ∧ matchList = [] then none
        else some { entry := entry, chartData := chart, score := score, matchList := matchList }

/-- The chart-level filter of `getRelevantCharts` (`source`, `chartType`,
`dateRange`; `query.source` is an enum string, truthy whenever present). -/
def chartPasses (query : SearchQuery) (chart : ChartData) : Bool :=
  (match query.source with
   | some s => chart.source == s
   | none => true) &&
  (match getTruthy query.chartType with
   | some t => chart.chartType == t
   | none => true) &&
  (match query.dateRange with
   | some r => !(chart.date < r.start || r.stop < chart.date)
   | none => true)

/-- `SearchEngine.getRelevantCharts`: linear scan of the chart-data cache. -/
def getRelevantCharts (cache : List ChartData) (query : SearchQuery) : List ChartData :=
  cache.filter (chartPasses query)

/-- The collection phase of `SearchEngine.search`, restricted to its result
list (the auxiliary `SearchStats` record is write-only bookkeeping).  The
state of the engine is the value sequence of `chartDataCache`; `searchIndex`
is never consulted by `search`.  Every entry of every relevant chart is
scored, and scored entries with positive score are kept. -/
def searchResults (cache : List ChartData) (query : SearchQuery) (now : Int) :
    List SearchResult :=
  let relevantCharts := getRelevantCharts cache query
  relevantCharts.flatMap fun chart =>
    chart.entries.filterMap fun entry =>
      match scoreEntry entry chart query now with
      | some r => if 0 < r.score then some r else none
      | none => none

/-- The sort step of `SearchEngine.search`: `results.sort((a, b) => b.score -
a.score)`, a stable sort by descending score. -/
def searchSorted (cache : List ChartData) (query : SearchQuery) (now : Int) :
    List SearchResult :=
  (searchResults cache query now).mergeSort fun a b : SearchResult => decide (b.score ≤ a.score)

/-- The tail of `SearchEngine.search`: apply `limit` to the sorted results.
With JS truthiness a `limit` of `0` applies no slicing at all. -/
def search (cache : List ChartData) (query : SearchQuery) (now : Int) : List SearchResult :=
  let sorted := searchSorted cache query now
  match query.limit with
  | some l => if l != 0 then sorted.take l else sorted
  | none => sorted

/-- The search engine's mutable state, as far as `search` reads it.  The
`searchIndex` map only feeds `quickSearch` and is omitted. -/
structure SearchEngine where
  chartDataCache : List ChartData

/-- A call of the `search` method: returns the result list together with the
engine state after the call.  The method only reads `chartDataCache` and
`searchIndex`; it reassigns neither, so the state passes through unchanged. -/
def SearchEngine.searchCall (eng : SearchEngine) (query : SearchQuery) (now : Int) :
    List SearchResult × SearchEngine :=
  (search eng.chartDataCache query now, eng)

/-! ### Cache layer (`ChartCache.ts`) -/

/-- `CacheItem` of `ChartCache.ts`. -/
structure CacheItem where
  data : ChartData
  timestamp : Int
  ttl : Int
deriving DecidableEq

/-- `CacheOptions` with the constructor's defaults. -/
structure CacheOptions where
  ttl : Int := 1000 * 60 * 60
  maxSize : Nat := 100
  persistent : Bool := true
deriving DecidableEq

/-- `Map.prototype.get` on an insertion-ordered association list. -/
def mapGet {α : Type} (m : List (Str × α)) (k : Str) : Option α :=
  match m.find? (fun p => p.1 == k) with
  | some p => some p.2
  | none => none

/-- `Map.prototype.set`: overwrite in place when the key is present
(keeping its position), append otherwise. -/
def mapSet {α : Type} (m : List (Str × α)) (k : Str) (v : α) : List (Str × α) :=
  if m.any (fun p => p.1 == k) then
    m.map fun p => if p.1 == k then (k, v) else p
  else m ++ [(k, v)]

/-- `Map.prototype.delete` (and `localStorage.removeItem`). -/
def mapDelete {α : Type} (m : List (Str × α)) (k : Str) : List (Str × α) :=
  m.filter fun p => p.1 != k

/-- The state of a `ChartCache` instance: the in-memory map, the
`localStorage` backing store (keys without the `brickcharts-` prefix), and
the resolved options. -/
structure ChartCache where
  memoryCache : List (Str × CacheItem) := []
  storage : List (Str × CacheItem) := []
  options : CacheOptions := {}
deriving DecidableEq

/-- `ChartCache.isExpired`: `Date.now() - item.timestamp > item.ttl`. -/
def isExpired (item : CacheItem) (now : Int) : Bool :=
  item.ttl < now - item.timestamp

/-- `ChartCache.evictOldest`: a linear scan carrying `(oldestKey, oldestTime)`
initialized to `(null, Date.now())`; an entry only becomes the eviction
candidate when its timestamp is strictly below the running minimum.  The
final `if (oldestKey)` is a JS truthiness test: nothing is evicted when no
timestamp is strictly below `now`, and likewise nothing is evicted when the
selected oldest key is the empty string (falsy). -/
def evictOldest (m : List (Str × CacheItem)) (now : Int) : List (Str × CacheItem) :=
  let scan :=
    m.foldl
      (fun acc p => if p.2.timestamp < acc.2 then (some p.1, p.2.timestamp) else acc)
      ((none : Option Str), now)
  match scan.1 with
  | some oldestKey => if oldestKey.isEmpty then m else mapDelete m oldestKey
  | none => m

/-- `ChartCache.set`: evict when the map is already at `maxSize`, insert with
the current timestamp and the cache-wide TTL, and mirror to the backing
store when `persistent` (the model's backing store never fails). -/
def ChartCache.set (c : ChartCache) (now : Int) (key : Str) (data : ChartData) : ChartCache :=
  let item : CacheItem := { data := data, timestamp := now, ttl := c.options.ttl }
  let mem :=
    if c.options.maxSize ≤ c.memoryCache.length then evictOldest c.memoryCache now
    else c.memoryCache
  { c with
    memoryCache := mapSet mem key item
    storage := if c.options.persistent then mapSet c.storage key item else c.storage }

/-- `ChartCache.delete`: removes the key from memory and, when persistent,
from the backing store. -/
def ChartCache.delete (c : ChartCache) (key : Str) : ChartCache :=
  { c with
    memoryCache := mapDelete c.memoryCache key
    storage := if c.options.persistent then mapDelete c.storage key else c.storage }

/-- `ChartCache.get`: memory first; on a memory miss with `persistent`, load
the entry from the backing store into memory; then the hard expiry check,
deleting and reporting absent when `now - timestamp > ttl`.  Returns the
value (or `none`) together with the cache state after the call. -/
def ChartCache.get (c : ChartCache) (now : Int) (key : Str) : Option ChartData × ChartCache :=
  let loaded : Option CacheItem × ChartCache :=
    match mapGet c.memoryCache key with
    | some item => (some item, c)
    | none =>
      if c.options.persistent then
        match mapGet c.storage key with
        | some item => (some item, { c with memoryCache := mapSet c.memoryCache key item })
        | none => (none, c)
      else (none, c)
  match loaded with
  | (none, c1) => (none, c1)
  | (some item, c1) =>
    if isExpired item now then (none, c1.delete key)
    else (some item.data, c1)

/-- The record returned by `ChartCache.getStats`. -/
structure CacheStats where
  totalItems : Nat
  validItems : Nat
  expiredItems : Nat
  maxSize : Nat
  persistent : Bool
  ttl : Int
deriving DecidableEq

/-- `ChartCache.getStats`: an O(n) scan classifying every in-memory entry
with the same expiry check used by `get`. -/
def ChartCache.getStats (c : ChartCache) (now : Int) : CacheStats :=
  { totalItems := c.memoryCache.length
    validItems := c.memoryCache.countP fun p => !isExpired p.2 now
    expiredItems := c.memoryCache.countP fun p => isExpired p.2 now
    maxSize := c.options.maxSize
    persistent := c.options.persistent
    ttl := c.options.ttl }

/-- A sequence of `set` calls, each with its own clock reading. -/
def ChartCache.setSeq (c : ChartCache) (calls : List (Int × Str × ChartData)) : ChartCache :=
  calls.foldl (fun c call => c.set call.1 call.2.1 call.2.2) c

/-- The in-memory image of a list of `set` calls: each call's key mapped to
the item that call created. -/
def itemsOf (ttl : Int) (calls : List (Int × Str × ChartData)) : List (Str × CacheItem) :=
  calls.map fun call => (call.2.1, { data := call.2.2, timestamp := call.1, ttl := ttl })

end BrickCharts

namespace BrickCharts

/-! ### Association-list lemmas -/

theorem mapGet_mapSet_self {α : Type} (m : List (Str × α)) (k : Str) (v : α) :
    mapGet (mapSet m k v) k = some v := by
  induction m with
  | nil => simp [mapSet, mapGet]
  | cons p m ih =>
    by_cases hp : p.1 = k
    · simp [mapSet, mapGet, hp]
    · by_cases hm : m.any (fun q => q.1 == k)
      · simpa [mapSet, mapGet, hp, hm] using ih
      · simpa [mapSet, mapGet, hp, hm] using ih

theorem mapGet_mapDelete_self {α : Type} (m : List (Str × α)) (k : Str) :
    mapGet (mapDelete m k) k = none := by
  induction m with
  | nil => simp [mapDelete, mapGet]
  | cons p m ih =>
    by_cases hp : p.1 = k
    · simpa [mapDelete, mapGet, hp] using ih
    · simpa [mapDelete, mapGet, hp] using ih

/-- Deleting a key that `mapGet` resolves to `item` removes exactly that pair
when the keys are distinct: any per-pair count is decremented by the deleted
pair's contribution. -/
theorem countP_mapDelete {α : Type} (p : Str × α → Bool) (m : List (Str × α)) (k : Str)
    (item : α) (hget : mapGet m k = some item) (hnd : (m.map Prod.fst).Nodup) :
    m.countP p = (mapDelete m k).countP p + (if p (k, item) then 1 else 0) := by
  induction m with
  | nil => simp [mapGet] at hget
  | cons q m ih =>
    obtain ⟨q1, q2⟩ := q
    have hnd1 : (q1 :: m.map Prod.fst).Nodup := by
      rw [List.map_cons] at hnd
      exact hnd
    by_cases hq : q1 = k
    · subst hq
      have hitem : q2 = item := by simpa [mapGet] using hget
      subst hitem
      have hk : q1 ∉ m.map Prod.fst := (List.nodup_cons.mp hnd1).1
      have hdel : mapDelete m q1 = m := by
        apply List.filter_eq_self.mpr
        intro a ha
        have h1 : a.1 ≠ q1 := fun h => hk (h ▸ List.mem_map_of_mem Prod.fst ha)
        simpa using h1
      have h2 : mapDelete ((q1, q2) :: m) q1 = m := by
        rw [mapDelete] at hdel ⊢
        rw [List.filter_cons]
        have hcond : (((q1, q2) : Str × α).1 != q1) = false := by simp
        rw [hcond]
        simp only [Bool.false_eq_true, if_false]
        exact hdel
      rw [h2, List.countP_cons]
    · have hget2 : mapGet m k = some item := by
        simpa [mapGet, hq] using hget
      have hnd2 : (m.map Prod.fst).Nodup := (List.nodup_cons.mp hnd1).2
      have h3 : mapDelete ((q1, q2) :: m) k = (q1, q2) :: mapDelete m k := by
        rw [mapDelete, mapDelete, List.filter_cons]
        simp [hq]
      rw [h3, List.countP_cons, List.countP_cons, ih hget2 hnd2]
      omega

/-- Length version of `countP_mapDelete`. -/
theorem length_mapDelete {α : Type} (m : List (Str × α)) (k : Str) (item : α)
    (hget : mapGet m k = some item) (hnd : (m.map Prod.fst).Nodup) :
    m.length = (mapDelete m k).length + 1 := by
  have h := countP_mapDelete (fun _ => true) m k item hget hnd
  simpa [List.countP_true] using h

/-! ### Cache claims -/

/-- Sample chart value used by concrete witnesses. -/
def wChart : ChartData := { chartType := ['h'], totalEntries := 1 }

/-- C1: for every cache key `k` and chart value `v`, `set k v` at time `t`
followed by `get k` at a time `t2` at which the entry's TTL has not elapsed
(`t2 - t ≤ ttl`) returns a value deep-equal to `v`. -/
theorem set_then_get_returns_value (c : ChartCache) (t t2 : Int) (k : Str) (v : ChartData)
    (h : t2 - t ≤ c.options.ttl) :
    ((c.set t k v).get t2 k).1 = some v := by
  have hne : isExpired { data := v, timestamp := t, ttl := c.options.ttl } t2 = false := by
    simp only [isExpired, decide_eq_false_iff_not, not_lt]
    omega
  simp [ChartCache.set, ChartCache.get, mapGet_mapSet_self, hne]

/-- C1 witness: a concrete `set` at time 0 read back at time 10. -/
theorem set_then_get_returns_value_witness :
    ((10 : Int) - 0 ≤ ({} : ChartCache).options.ttl) ∧
      ((({} : ChartCache).set 0 ['k'] wChart).get 10 ['k']).1 = some wChart :=
  ⟨by decide, set_then_get_returns_value {} 0 10 ['k'] wChart (by decide)⟩

/-- C3: when the in-memory entry for `k` satisfies `now - timestamp > ttl`,
`get` reports absence (without throwing), deletes the entry, and a
subsequent `getStats` no longer counts the key: `validItems` is unchanged
(the key was expired, not valid) and `totalItems` drops by one. -/
theorem get_expired_removes_entry (c : ChartCache) (now : Int) (k : Str) (item : CacheItem)
    (hmem : mapGet c.memoryCache k = some item)
    (hexp : item.ttl < now - item.timestamp)
    (hnd : (c.memoryCache.map Prod.fst).Nodup) :
    (c.get now k).1 = none
    ∧ mapGet (c.get now k).2.memoryCache k = none
    ∧ ((c.get now k).2.getStats now).validItems = (c.getStats now).validItems
    ∧ ((c.get now k).2.getStats now).totalItems + 1 = (c.getStats now).totalItems := by
  have hexpb : isExpired item now = true := by
    simp only [isExpired, decide_eq_true_eq]
    omega
  have hget : c.get now k = (none, c.delete k) := by
    simp [ChartCache.get, hmem, hexpb]
  refine ⟨by rw [hget], ?_, ?_, ?_⟩
  · rw [hget]
    by_cases hp : c.options.persistent <;>
      simp [ChartCache.delete, mapGet_mapDelete_self, hp]
  · rw [hget]
    have hcount := countP_mapDelete (fun q => !isExpired q.2 now) c.memoryCache k item hmem hnd
    simp only [hexpb, Bool.not_true, Bool.false_eq_true, if_false] at hcount
    simp [ChartCache.getStats, ChartCache.delete]
    omega
  · rw [hget]
    have hlen := length_mapDelete c.memoryCache k item hmem hnd
    simp [ChartCache.getStats, ChartCache.delete]
    omega

/-- Expired item for the C3 witness. -/
def wItem : CacheItem := { data := wChart, timestamp := 0, ttl := 5 }

/-- Cache state for the C3 witness. -/
def wCache3 : ChartCache := { memoryCache := [(['k'], wItem)] }

/-- C3 witness: a concrete expired entry read at time 10. -/
theorem get_expired_removes_entry_witness :
    (mapGet wCache3.memoryCache ['k'] = some wItem
      ∧ wItem.ttl < 10 - wItem.timestamp
      ∧ (wCache3.memoryCache.map Prod.fst).Nodup)
    ∧ ((wCache3.get 10 ['k']).1 = none
      ∧ mapGet (wCache3.get 10 ['k']).2.memoryCache ['k'] = none
      ∧ ((wCache3.get 10 ['k']).2.getStats 10).validItems = (wCache3.getStats 10).validItems
      ∧ ((wCache3.get 10 ['k']).2.getStats 10).totalItems + 1 = (wCache3.getStats 10).totalItems) :=
  ⟨⟨by decide, by decide, by decide⟩,
    get_expired_removes_entry wCache3 10 ['k'] wItem (by decide) (by decide) (by decide)⟩

/-- Cache with `maxSize` 1 for the C2 counterexample. -/
def cex2Cache : ChartCache :=
  { options := { ttl := 3600000, maxSize := 1, persistent := false } }

/-- C2 counterexample: two `set` calls with distinct keys in the same
millisecond.  `evictOldest` initializes its scan minimum to `Date.now()` and
only considers strictly smaller timestamps, so when the oldest entry was
inserted in the same millisecond nothing is evicted and the cache ends with
2 entries despite `maxSize = 1`. -/
theorem setSeq_same_timestamp_counterexample :
    cex2Cache.options.maxSize = 1
      ∧ (cex2Cache.setSeq [(0, ['a'], wChart), (0, ['b'], wChart)]).memoryCache.length = 2 := by
  constructor
  · rfl
  · decide

/-- A `mapSet` with a fresh key appends. -/
theorem mapSet_of_not_mem {α : Type} (m : List (Str × α)) (k : Str) (v : α)
    (h : k ∉ m.map Prod.fst) :
    mapSet m k v = m ++ [(k, v)] := by
  rw [mapSet, if_neg]
  intro hc
  rcases List.any_eq_true.mp hc with ⟨p, hp, hpk⟩
  have hpk2 : p.1 = k := by simpa using hpk
  apply h
  rw [← hpk2]
  exact List.mem_map_of_mem Prod.fst hp

/-- The eviction scan never moves off a minimum that every later entry
strictly exceeds. -/
theorem foldl_oldest_fixed (rest : List (Str × CacheItem)) (k0 : Str) (t0 : Int)
    (h : ∀ p ∈ rest, t0 < p.2.timestamp) :
    rest.foldl
        (fun acc p => if p.2.timestamp < acc.2 then (some p.1, p.2.timestamp) else acc)
        ((some k0 : Option Str), t0)
      = (some k0, t0) := by
  induction rest with
  | nil => rfl
  | cons p rest ih =>
    have hp : ¬ p.2.timestamp < t0 := not_lt.mpr (le_of_lt (h p (List.mem_cons_self p rest)))
    rw [List.foldl_cons, if_neg hp]
    exact ih fun q hq => h q (List.mem_cons_of_mem p hq)

/-- On a map whose first entry has the strictly smallest timestamp — itself
strictly below `now` — and whose key is nonempty (truthy), `evictOldest`
removes exactly that first entry. -/
theorem evictOldest_head (k0 : Str) (i0 : CacheItem) (rest : List (Str × CacheItem)) (now : Int)
    (h0 : i0.timestamp < now)
    (hk0ne : k0 ≠ [])
    (hrest : ∀ p ∈ rest, i0.timestamp < p.2.timestamp)
    (hk : k0 ∉ rest.map Prod.fst) :
    evictOldest ((k0, i0) :: rest) now = rest := by
  have hscan :
      ((k0, i0) :: rest).foldl
          (fun acc p => if p.2.timestamp < acc.2 then (some p.1, p.2.timestamp) else acc)
          ((none : Option Str), now)
        = (some k0, i0.timestamp) := by
    rw [List.foldl_cons, if_pos h0]
    exact foldl_oldest_fixed rest k0 i0.timestamp hrest
  have hdel2 : mapDelete ((k0, i0) :: rest) k0 = rest := by
    rw [mapDelete, List.filter_cons]
    have hcond : (((k0, i0) : Str × CacheItem).1 != k0) = false := by simp
    rw [hcond]
    simp only [Bool.false_eq_true, if_false]
    apply List.filter_eq_self.mpr
    intro a ha
    have h1 : a.1 ≠ k0 := fun h => hk (h ▸ List.mem_map_of_mem Prod.fst ha)
    simpa using h1
  have hempty : k0.isEmpty = false := by
    cases k0 with
    | nil => exact absurd rfl hk0ne
    | cons c cs => rfl
  rw [evictOldest]
  rw [hscan]
  show (if k0.isEmpty then ((k0, i0) :: rest) else mapDelete ((k0, i0) :: rest) k0) = rest
  rw [hempty]
  simp only [Bool.false_eq_true, if_false]
  exact hdel2

theorem itemsOf_cons (ttl : Int) (c : Int × Str × ChartData) (l : List (Int × Str × ChartData)) :
    itemsOf ttl (c :: l)
      = (c.2.1, { data := c.2.2, timestamp := c.1, ttl := ttl }) :: itemsOf ttl l := rfl

theorem itemsOf_append (ttl : Int) (l1 l2 : List (Int × Str × ChartData)) :
    itemsOf ttl (l1 ++ l2) = itemsOf ttl l1 ++ itemsOf ttl l2 := by
  simp [itemsOf]

theorem length_itemsOf (ttl : Int) (l : List (Int × Str × ChartData)) :
    (itemsOf ttl l).length = l.length := by
  simp [itemsOf]

theorem keys_itemsOf (ttl : Int) (l : List (Int × Str × ChartData)) :
    (itemsOf ttl l).map Prod.fst = l.map fun c => c.2.1 := by
  simp [itemsOf, List.map_map]

/-- Invariant of a run of `set` calls with strictly increasing clock readings
and pairwise-distinct keys, starting from a memory image `itemsOf prev` of at
most `maxSize` earlier calls: the memory afterwards is the image of the last
`maxSize` calls of the combined history (every overflow evicted exactly the
oldest entry). -/
theorem setSeq_invariant (opts : CacheOptions) (h1 : 1 ≤ opts.maxSize) :
    ∀ (calls prev : List (Int × Str × ChartData)) (st : List (Str × CacheItem)),
      prev.length ≤ opts.maxSize →
      ((prev ++ calls).map (fun c => c.2.1)).Nodup →
      [] ∉ (prev ++ calls).map (fun c => c.2.1) →
      ((prev ++ calls).map (fun c => c.1)).Chain' (· < ·) →
      (ChartCache.setSeq
          { memoryCache := itemsOf opts.ttl prev, storage := st, options := opts }
          calls).memoryCache
        = itemsOf opts.ttl ((prev ++ calls).drop (prev.length + calls.length - opts.maxSize)) := by
  intro calls
  induction calls with
  | nil =>
    intro prev st hlen hnd hnil hch
    have hz : prev.length + List.length ([] : List (Int × Str × ChartData)) - opts.maxSize = 0 := by
      simp only [List.length_nil]
      omega
    rw [hz, List.drop_zero, List.append_nil]
    rfl
  | cons call calls ih =>
    obtain ⟨t, k, v⟩ := call
    intro prev st hlen hnd hnil hch
    have hstep :
        ChartCache.setSeq
            { memoryCache := itemsOf opts.ttl prev, storage := st, options := opts }
            ((t, k, v) :: calls)
          = ChartCache.setSeq
              (ChartCache.set
                { memoryCache := itemsOf opts.ttl prev, storage := st, options := opts }
                t k v)
              calls := rfl
    rcases Nat.lt_or_ge prev.length opts.maxSize with hlt | hge
    · -- below capacity: no eviction, plain append
      have hkfresh : k ∉ prev.map fun c => c.2.1 := by
        intro hmem
        have hdisj :=
          List.disjoint_of_nodup_append (by simpa [List.map_append] using hnd)
        exact hdisj hmem (by simp)
      have hset :
          ChartCache.set
              { memoryCache := itemsOf opts.ttl prev, storage := st, options := opts }
              t k v
            = { memoryCache := itemsOf opts.ttl (prev ++ [(t, k, v)])
                storage :=
                  if opts.persistent then
                    mapSet st k { data := v, timestamp := t, ttl := opts.ttl }
                  else st
                options := opts } := by
        rw [ChartCache.set]
        have hnoev : ¬ opts.maxSize ≤ (itemsOf opts.ttl prev).length := by
          rw [length_itemsOf]
          omega
        rw [if_neg hnoev, mapSet_of_not_mem _ _ _ (by rw [keys_itemsOf]; exact hkfresh)]
        rw [itemsOf_append, itemsOf_cons]
        rfl
      rw [hstep, hset]
      have hnd2 : (((prev ++ [(t, k, v)]) ++ calls).map (fun c => c.2.1)).Nodup := by
        rw [List.append_cons] at hnd
        exact hnd
      have hch2 : (((prev ++ [(t, k, v)]) ++ calls).map (fun c => c.1)).Chain' (· < ·) := by
        rw [List.append_cons] at hch
        exact hch
      have hnil2 : [] ∉ ((prev ++ [(t, k, v)]) ++ calls).map (fun c => c.2.1) := by
        rw [List.append_cons] at hnil
        exact hnil
      have hlen2 : (prev ++ [(t, k, v)]).length ≤ opts.maxSize := by
        simp only [List.length_append, List.length_cons, List.length_nil]
        omega
      rw [ih (prev ++ [(t, k, v)]) _ hlen2 hnd2 hnil2 hch2]
      have hl : (prev ++ [(t, k, v)]) ++ calls = prev ++ (t, k, v) :: calls := by
        simp
      have hi : (prev ++ [(t, k, v)]).length + calls.length - opts.maxSize
          = prev.length + ((t, k, v) :: calls).length - opts.maxSize := by
        simp only [List.length_append, List.length_cons, List.length_nil]
        omega
      rw [hl, hi]
    · -- at capacity: the head of `prev` is strictly oldest and gets evicted
      match prev, hlen, hge, hnd, hnil, hch with
      | [], hlen, hge, hnd, hnil, hch =>
        simp only [List.length_nil] at hge
        omega
      | (t0, k0, v0) :: ptail, hlen, hge, hnd, hnil, hch =>
        have hpw :
            ((((t0, k0, v0) :: ptail) ++ (t, k, v) :: calls).map (fun c => c.1)).Pairwise
              (· < ·) :=
          List.chain'_iff_pairwise.mp hch
        have hpw2 :
            ∀ b ∈ (ptail.map fun c => c.1) ++ t :: (calls.map fun c => c.1), t0 < b := by
          rw [List.cons_append, List.map_cons, List.map_append, List.map_cons] at hpw
          exact (List.pairwise_cons.mp hpw).1
        have ht0t : t0 < t := hpw2 t (by simp)
        have ht0tail : ∀ p ∈ itemsOf opts.ttl ptail, t0 < p.2.timestamp := by
          intro p hp
          rcases List.mem_map.mp hp with ⟨c, hc, hcp⟩
          have : t0 < c.1 := hpw2 c.1 (List.mem_append_left _ (List.mem_map_of_mem _ hc))
          rw [← hcp]
          exact this
        have hknodup :
            (k0 :: ((ptail ++ (t, k, v) :: calls).map fun c => c.2.1)).Nodup := by
          simpa using hnd
        have hknil :
            [] ∉ (k0 :: ((ptail ++ (t, k, v) :: calls).map fun c => c.2.1)) := by
          simpa using hnil
        have hk0ne : k0 ≠ [] := by
          intro h
          apply hknil
          rw [← h]
          exact List.mem_cons_self _ _
        have hk0 : k0 ∉ (itemsOf opts.ttl ptail).map Prod.fst := by
          rw [keys_itemsOf]
          intro hmem
          exact (List.nodup_cons.mp hknodup).1
            (by simpa [List.map_append] using Or.inl hmem)
        have hkfresh : k ∉ ptail.map fun c => c.2.1 := by
          intro hmem
          have hdisj :=
            List.disjoint_of_nodup_append
              (by simpa [List.map_append] using (List.nodup_cons.mp hknodup).2)
          exact hdisj hmem (by simp)
        have hev :
            evictOldest (itemsOf opts.ttl ((t0, k0, v0) :: ptail)) t
              = itemsOf opts.ttl ptail := by
          rw [itemsOf_cons]
          exact evictOldest_head k0 _ _ t ht0t hk0ne ht0tail hk0
        have hset :
            ChartCache.set
                { memoryCache := itemsOf opts.ttl ((t0, k0, v0) :: ptail), storage := st
                  options := opts }
                t k v
              = { memoryCache := itemsOf opts.ttl (ptail ++ [(t, k, v)])
                  storage :=
                    if opts.persistent then
                      mapSet st k { data := v, timestamp := t, ttl := opts.ttl }
                    else st
                  options := opts } := by
          rw [ChartCache.set]
          have hyes : opts.maxSize ≤ (itemsOf opts.ttl ((t0, k0, v0) :: ptail)).length := by
            rw [length_itemsOf]
            exact hge
          rw [if_pos hyes, hev, mapSet_of_not_mem _ _ _ (by rw [keys_itemsOf]; exact hkfresh)]
          rw [itemsOf_append, itemsOf_cons]
          rfl
        rw [hstep, hset]
        have hnd2 : (((ptail ++ [(t, k, v)]) ++ calls).map (fun c => c.2.1)).Nodup := by
          rw [← List.append_cons]
          exact (List.nodup_cons.mp hknodup).2
        have hch2 : (((ptail ++ [(t, k, v)]) ++ calls).map (fun c => c.1)).Chain' (· < ·) := by
          rw [← List.append_cons]
          have := hch.tail
          simpa using this
        have hnil2 : [] ∉ ((ptail ++ [(t, k, v)]) ++ calls).map (fun c => c.2.1) := by
          rw [← List.append_cons]
          intro h
          exact hknil (List.mem_cons_of_mem _ h)
        have hlen3 : (ptail ++ [(t, k, v)]).length ≤ opts.maxSize := by
          simp only [List.length_cons] at hlen
          simp only [List.length_append, List.length_cons, List.length_nil]
          omega
        rw [ih (ptail ++ [(t, k, v)]) _ hlen3 hnd2 hnil2 hch2]
        have hl2 : (ptail ++ [(t, k, v)]) ++ calls = ptail ++ (t, k, v) :: calls := by
          simp
        rw [hl2]
        have hidx : (ptail ++ [(t, k, v)]).length + calls.length - opts.maxSize
            = ptail.length + 1 + calls.length - opts.maxSize := by
          simp only [List.length_append, List.length_cons, List.length_nil]
        rw [hidx]
        have hidx2 :
            ((t0, k0, v0) :: ptail).length + ((t, k, v) :: calls).length - opts.maxSize
              = (ptail.length + 1 + calls.length - opts.maxSize) + 1 := by
          simp only [List.length_cons] at hlen hge ⊢
          omega
        rw [List.cons_append, hidx2, List.drop_succ_cons]

/-- C2 (amended): a sequence of more than `maxSize` `set` calls with
distinct *nonempty* keys and *strictly increasing* clock readings, starting
from an empty cache with `maxSize ≥ 1`, leaves exactly `maxSize` entries:
the image of the last `maxSize` calls, i.e. every eviction removed the entry
with the smallest insertion timestamp.  (Both extra hypotheses are forced:
`evictOldest` only considers timestamps strictly below `Date.now()`, so
same-millisecond insertions overflow the bound, and its final
`if (oldestKey)` truthiness test skips deletion when the oldest key is the
empty string.) -/
theorem setSeq_exactly_maxSize (opts : CacheOptions) (calls : List (Int × Str × ChartData))
    (h1 : 1 ≤ opts.maxSize) (hn : opts.maxSize < calls.length)
    (hk : (calls.map (fun c => c.2.1)).Nodup)
    (hnil : [] ∉ calls.map (fun c => c.2.1))
    (ht : (calls.map (fun c => c.1)).Chain' (· < ·)) :
    (ChartCache.setSeq { options := opts } calls).memoryCache
        = itemsOf opts.ttl (calls.drop (calls.length - opts.maxSize))
    ∧ (ChartCache.setSeq { options := opts } calls).memoryCache.length = opts.maxSize := by
  have hmain := setSeq_invariant opts h1 calls [] []
    (by simp) (by simpa using hk) (by simpa using hnil) (by simpa using ht)
  simp only [List.nil_append, List.length_nil, Nat.zero_add] at hmain
  rw [show itemsOf opts.ttl [] = [] from rfl] at hmain
  refine ⟨hmain, ?_⟩
  rw [hmain, length_itemsOf, List.length_drop]
  omega

/-- C2 witness: two strictly-clocked `set` calls against `maxSize = 1` leave
only the later entry. -/
theorem setSeq_exactly_maxSize_witness :
    (ChartCache.setSeq { options := cex2Cache.options }
          [(0, ['a'], wChart), (1, ['b'], wChart)]).memoryCache
        = itemsOf cex2Cache.options.ttl [(1, ['b'], wChart)]
    ∧ (ChartCache.setSeq { options := cex2Cache.options }
          [(0, ['a'], wChart), (1, ['b'], wChart)]).memoryCache.length
        = cex2Cache.options.maxSize :=
  setSeq_exactly_maxSize cex2Cache.options [(0, ['a'], wChart), (1, ['b'], wChart)]
    (by decide) (by decide) (by decide) (by decide)
    (by norm_num [List.chain'_cons, List.chain'_singleton])

/-! ### Levenshtein lemmas -/

theorem levFuel_comm : ∀ (n : Nat) (s1 s2 : Str), levFuel n s1 s2 = levFuel n s2 s1 := by
  intro n
  induction n with
  | zero =>
    intro s1 s2
    cases s1 <;> cases s2 <;> simp [levFuel]
  | succ n ih =>
    intro s1 s2
    cases s1 with
    | nil => cases s2 <;> simp [levFuel]
    | cons x s1 =>
      cases s2 with
      | nil => simp [levFuel]
      | cons y s2 =>
        simp only [levFuel]
        by_cases hxy : x = y
        · rw [if_pos hxy, if_pos hxy.symm]
          exact ih s1 s2
        · rw [if_neg hxy, if_neg fun h => hxy h.symm]
          have e1 := ih s1 s2
          have e2 := ih (x :: s1) s2
          have e3 := ih s1 (y :: s2)
          omega

theorem levFuel_le_max :
    ∀ (n : Nat) (s1 s2 : Str), s1.length + s2.length ≤ n →
      levFuel n s1 s2 ≤ max s1.length s2.length := by
  intro n
  induction n with
  | zero =>
    intro s1 s2 h
    cases s1 <;> cases s2 <;> simp_all [levFuel]
  | succ n ih =>
    intro s1 s2 h
    cases s1 with
    | nil => simp [levFuel]
    | cons x s1 =>
      cases s2 with
      | nil => simp [levFuel]
      | cons y s2 =>
        simp only [levFuel]
        simp only [List.length_cons] at h ⊢
        by_cases hxy : x = y
        · rw [if_pos hxy]
          have hA := ih s1 s2 (by omega)
          omega
        · rw [if_neg hxy]
          have hA := ih s1 s2 (by omega)
          omega

theorem levenshtein_comm (s1 s2 : Str) : levenshtein s1 s2 = levenshtein s2 s1 := by
  rw [levenshtein, levenshtein, levFuel_comm, Nat.add_comm]

theorem levenshtein_le_max (s1 s2 : Str) :
    levenshtein s1 s2 ≤ max s1.length s2.length :=
  levFuel_le_max _ s1 s2 le_rfl

/-- C10: `calculateSimilarity` is symmetric in its two arguments and its
value always lies in the closed interval [0, 1]. -/
theorem calculateSimilarity_symm_bounded (a b : Str) :
    calculateSimilarity a b = calculateSimilarity b a
      ∧ 0 ≤ calculateSimilarity a b ∧ calculateSimilarity a b ≤ 1 := by
  refine ⟨?_, ?_, ?_⟩
  · simp only [calculateSimilarity]
    rw [levenshtein_comm, Nat.max_comm]
  · by_cases h : max a.length b.length = 0
    · simp [calculateSimilarity, h]
    · simp only [calculateSimilarity, if_neg h]
      have hd := levenshtein_le_max a b
      have hdq : (levenshtein a b : ℚ) ≤ ((max a.length b.length : Nat) : ℚ) := by
        exact_mod_cast hd
      have hmax : (0 : ℚ) < ((max a.length b.length : Nat) : ℚ) := by
        exact_mod_cast Nat.pos_of_ne_zero h
      apply div_nonneg
      · linarith
      · linarith
  · by_cases h : max a.length b.length = 0
    · simp [calculateSimilarity, h]
    · simp only [calculateSimilarity, if_neg h]
      have hmax : (0 : ℚ) < ((max a.length b.length : Nat) : ℚ) := by
        exact_mod_cast Nat.pos_of_ne_zero h
      rw [div_le_one hmax]
      have hd0 : (0 : ℚ) ≤ (levenshtein a b : ℚ) := by positivity
      linarith

/-- C5: full characterization of `matchText`: case-insensitive equality
yields an exact match with confidence 1; otherwise substring containment
yields a partial match with confidence query-length / text-length; otherwise
with `fuzzy` enabled the result is a fuzzy match carrying the normalized
Levenshtein similarity `(max(len1,len2) - editDistance) / max(len1,len2)`
exactly when that similarity exceeds 0.6, and no match below the threshold;
the similarity of two empty strings is 1. -/
theorem matchText_spec (text query : Str) (fuzzy : Bool) :
    (toLowerStr text = toLowerStr query →
        matchText text query fuzzy = some (MatchType.exact, 1))
    ∧ (toLowerStr text ≠ toLowerStr query → toLowerStr query <:+: toLowerStr text →
        matchText text query fuzzy
          = some (MatchType.partialM,
              ((toLowerStr query).length : ℚ) / ((toLowerStr text).length : ℚ)))
    ∧ (toLowerStr text ≠ toLowerStr query → ¬ toLowerStr query <:+: toLowerStr text →
        (matchText text query true
            = some (MatchType.fuzzy, calculateSimilarity (toLowerStr text) (toLowerStr query))
          ↔ (3 : ℚ) / 5 < calculateSimilarity (toLowerStr text) (toLowerStr query)))
    ∧ (toLowerStr text ≠ toLowerStr query → ¬ toLowerStr query <:+: toLowerStr text →
        ¬ (3 : ℚ) / 5 < calculateSimilarity (toLowerStr text) (toLowerStr query) →
        matchText text query fuzzy = none)
    ∧ (toLowerStr text ≠ toLowerStr query →
        calculateSimilarity (toLowerStr text) (toLowerStr query)
          = (((max (toLowerStr text).length (toLowerStr query).length : Nat) : ℚ)
                - (levenshtein (toLowerStr text) (toLowerStr query) : ℚ))
              / ((max (toLowerStr text).length (toLowerStr query).length : Nat) : ℚ))
    ∧ calculateSimilarity [] [] = 1 := by
  refine ⟨?_, ?_, ?_, ?_, ?_, ?_⟩
  · intro h
    simp [matchText, h]
  · intro h hin
    simp [matchText, h, hin]
  · intro h hin
    by_cases hs : (3 : ℚ) / 5 < calculateSimilarity (toLowerStr text) (toLowerStr query)
    · constructor
      · exact fun _ => hs
      · intro _
        simp [matchText, h, hin, hs]
    · constructor
      · intro heq
        simp [matchText, h, hin, hs] at heq
      · exact fun hc => absurd hc hs
  · intro h hin hs
    cases fuzzy <;> simp [matchText, h, hin, hs]
  · intro h
    have hmax : ¬ max (toLowerStr text).length (toLowerStr query).length = 0 := by
      intro h0
      apply h
      have h1 : (toLowerStr text).length = 0 := by omega
      have h2 : (toLowerStr query).length = 0 := by omega
      rw [List.length_eq_zero.mp h1, List.length_eq_zero.mp h2]
    simp [calculateSimilarity, hmax]
  · rfl

/-- C5 witness: a concrete partial match. -/
theorem matchText_spec_witness :
    matchText ['L', 'o', 'v', 'e', ' ', 'S'] ['l', 'o', 'v', 'e'] false
      = some (MatchType.partialM,
          ((toLowerStr ['l', 'o', 'v', 'e']).length : ℚ)
            / ((toLowerStr ['L', 'o', 'v', 'e', ' ', 'S']).length : ℚ)) :=
  (matchText_spec ['L', 'o', 'v', 'e', ' ', 'S'] ['l', 'o', 'v', 'e'] false).2.1
    (by decide) (by decide)

/-- Query with an empty-string title filter for the C4 counterexample. -/
def cex4Query : SearchQuery := { title := some [], artist := some ['z'] }

/-- Entry for the C4 counterexample. -/
def cex4Entry : ChartEntry := { rank := 1, title := ['a'], artist := ['b'] }

/-- Chart for the C4 counterexample. -/
def cex4Chart : ChartData := { entries := [cex4Entry] }

/-- C4 counterexample: with `fuzzy` disabled, the query supplies a title
filter (the empty string, which would itself match every entry as a
substring) and an artist filter that fails; the entry is nonetheless
rejected, contradicting "rejected only when no title filter was supplied":
`!query.title` treats the supplied empty string as absent. -/
theorem strictMode_empty_title_counterexample :
    cex4Query.title = some []
    ∧ cex4Query.fuzzy = false
    ∧ (matchText cex4Entry.title [] false).isSome
    ∧ cex4Query.artist = some ['z']
    ∧ matchText cex4Entry.artist ['z'] false = none
    ∧ scoreEntry cex4Entry cex4Chart cex4Query 0 = none :=
  ⟨rfl, rfl, by decide, rfl, by decide, by decide⟩

/-- C4 (amended): strict-mode (`fuzzy` off) text filtering, with JS
truthiness made explicit — an empty-string filter is ignored.  A truthy
title filter that matches neither exactly nor as a substring rejects the
entry; a truthy artist filter that fails rejects the entry exactly when the
query's title filter is falsy (absent or empty); when a truthy title filter
matched, an artist miss does not reject (the entry is accepted whenever the
hard range filters pass); a failed album filter never affects the result at
all. -/
theorem strictMode_rejection_spec (q : SearchQuery) (e : ChartEntry) (chart : ChartData)
    (now : Int) (hf : q.fuzzy = false) :
    (∀ t, getTruthy q.title = some t → matchText e.title t q.fuzzy = none →
        scoreEntry e chart q now = none)
    ∧ (∀ a, getTruthy q.artist = some a → matchText e.artist a q.fuzzy = none →
        getTruthy q.title = none → scoreEntry e chart q now = none)
    ∧ (∀ t a m, getTruthy q.title = some t → matchText e.title t q.fuzzy = some m →
        getTruthy q.artist = some a → matchText e.artist a q.fuzzy = none →
        rankRejects q e = false → weeksRejects q e = false → peakRejects q e = false →
        newEntriesRejects q e = false → (scoreEntry e chart q now).isSome)
    ∧ (∀ al, getTruthy q.album = some al →
        (∀ ea, getTruthy e.album = some ea → matchText ea al q.fuzzy = none) →
        scoreEntry e chart q now = scoreEntry e chart { q with album := none } now) := by
  refine ⟨?_, ?_, ?_, ?_⟩
  · intro t ht hm
    rw [hf] at hm
    simp [scoreEntry, ht, hm, hf]
  · intro a ha hm htnone
    rw [hf] at hm
    simp [scoreEntry, ha, hm, htnone, hf]
  · intro t a m ht hmt ha hma hr hw hp hn
    rw [hf] at hmt hma
    simp [scoreEntry, ht, hmt, ha, hma, hr, hw, hp, hn, hf]
  · intro al hal hmal
    have hr : rankRejects { q with album := none } e = rankRejects q e := rfl
    have hw : weeksRejects { q with album := none } e = weeksRejects q e := rfl
    have hp : peakRejects { q with album := none } e = peakRejects q e := rfl
    have hn : newEntriesRejects { q with album := none } e = newEntriesRejects q e := rfl
    have hgn : getTruthy (none : Option Str) = none := rfl
    cases hea : getTruthy e.album with
    | none => simp [scoreEntry, hal, hea, hr, hw, hp, hn, hgn]
    | some ea => simp [scoreEntry, hal, hea, hmal ea hea, hr, hw, hp, hn, hgn]

/-- Entry and query for the C4 witness: title matches, artist misses, the
entry is still accepted. -/
def w4Query : SearchQuery := { title := some ['a'], artist := some ['z'] }

/-- C4 witness: applies the title-rescues-artist conjunct at concrete data. -/
theorem strictMode_rejection_spec_witness :
    (scoreEntry cex4Entry cex4Chart w4Query 0).isSome :=
  (strictMode_rejection_spec w4Query cex4Entry cex4Chart 0 rfl).2.2.1
    ['a'] ['z'] (MatchType.exact, 1) (by decide) (by decide) (by decide) (by decide)
    (by decide) (by decide) (by decide) (by decide)

/-- Query for the C6 counterexample. -/
def cex6Query : SearchQuery := { weeksRange := some { min := 1, max := 5 } }

/-- Entry for the C6 counterexample: `weeksOnChart` present and equal to 0,
which lies outside the bound [1, 5]. -/
def cex6Entry : ChartEntry :=
  { rank := 1, title := ['a'], artist := ['b'], weeksOnChart := some 0 }

/-- Chart for the C6 counterexample. -/
def cex6Chart : ChartData := { entries := [cex6Entry] }

/-- C6 counterexample: the entry has `weeksOnChart = 0`, which lies outside
the inclusive bound [1, 5], yet `scoreEntry` does not exclude it: the guard
`query.weeksRange && entry.weeksOnChart` treats the number 0 as falsy and
skips the bound check entirely. -/
theorem weeksRange_zero_counterexample :
    cex6Query.weeksRange = some { min := 1, max := 5 }
    ∧ cex6Entry.weeksOnChart = some 0
    ∧ (0 : Nat) < 1
    ∧ (scoreEntry cex6Entry cex6Chart cex6Query 0).isSome := by
  refine ⟨rfl, rfl, by decide, ?_⟩
  norm_num +decide [scoreEntry, rankRejects, weeksRejects, peakRejects, newEntriesRejects,
    getTruthy, numTruthy, recencyBoost, max_def, cex6Query, cex6Entry, cex6Chart]

/-- C6 (amended): for a `weeksRange` (resp. `peakRange`) bound, `scoreEntry`
excludes the entry because of that bound iff the entry's `weeksOnChart`
(resp. `peakPosition`) is present, *nonzero*, and outside the inclusive
[min, max] interval; entries whose field is absent, zero (falsy in JS), or
within the bound are scored exactly as if the bound were removed from the
query. -/
theorem rangeFilter_spec (q : SearchQuery) (e : ChartEntry) (chart : ChartData) (now : Int) :
    (∀ r w, q.weeksRange = some r → e.weeksOnChart = some w → w ≠ 0 →
        (w < r.min ∨ r.max < w) → scoreEntry e chart q now = none)
    ∧ (∀ r, q.weeksRange = some r →
        (∀ w, e.weeksOnChart = some w → w ≠ 0 → r.min ≤ w ∧ w ≤ r.max) →
        scoreEntry e chart q now = scoreEntry e chart { q with weeksRange := none } now)
    ∧ (∀ r p, q.peakRange = some r → e.peakPosition = some p → p ≠ 0 →
        (p < r.min ∨ r.max < p) → scoreEntry e chart q now = none)
    ∧ (∀ r, q.peakRange = some r →
        (∀ p, e.peakPosition = some p → p ≠ 0 → r.min ≤ p ∧ p ≤ r.max) →
        scoreEntry e chart q now = scoreEntry e chart { q with peakRange := none } now) := by
  refine ⟨?_, ?_, ?_, ?_⟩
  · intro r w hr hw hw0 hout
    have hrej : weeksRejects q e = true := by
      simp only [weeksRejects, hr, hw, Bool.and_eq_true, bne_iff_ne, ne_eq,
        Bool.or_eq_true, decide_eq_true_eq]
      exact ⟨hw0, hout⟩
    simp [scoreEntry, hrej]
  · intro r hr hin
    have h1 : weeksRejects q e = false := by
      cases hw : e.weeksOnChart with
      | none => simp [weeksRejects, hr, hw]
      | some w =>
        by_cases hw0 : w = 0
        · simp [weeksRejects, hr, hw, hw0]
        · obtain ⟨hb1, hb2⟩ := hin w hw hw0
          have hA : ¬ w < r.min := by omega
          have hB : ¬ r.max < w := by omega
          simp [weeksRejects, hr, hw, hA, hB]
    have h2 : weeksRejects { q with weeksRange := none } e = false := rfl
    have hrk : rankRejects { q with weeksRange := none } e = rankRejects q e := rfl
    have hpk : peakRejects { q with weeksRange := none } e = peakRejects q e := rfl
    have hne : newEntriesRejects { q with weeksRange := none } e = newEntriesRejects q e := rfl
    simp [scoreEntry, h1, h2, hrk, hpk, hne]
  · intro r p hr hp hp0 hout
    have hrej : peakRejects q e = true := by
      simp only [peakRejects, hr, hp, Bool.and_eq_true, bne_iff_ne, ne_eq,
        Bool.or_eq_true, decide_eq_true_eq]
      exact ⟨hp0, hout⟩
    simp [scoreEntry, hrej]
  · intro r hr hin
    have h1 : peakRejects q e = false := by
      cases hp : e.peakPosition with
      | none => simp [peakRejects, hr, hp]
      | some p =>
        by_cases hp0 : p = 0
        · simp [peakRejects, hr, hp, hp0]
        · obtain ⟨hb1, hb2⟩ := hin p hp hp0
          have hA : ¬ p < r.min := by omega
          have hB : ¬ r.max < p := by omega
          simp [peakRejects, hr, hp, hA, hB]
    have h2 : peakRejects { q with peakRange := none } e = false := rfl
    have hrk : rankRejects { q with peakRange := none } e = rankRejects q e := rfl
    have hwk : weeksRejects { q with peakRange := none } e = weeksRejects q e := rfl
    have hne : newEntriesRejects { q with peakRange := none } e = newEntriesRejects q e := rfl
    simp [scoreEntry, h1, h2, hrk, hwk, hne]

/-- Entry for the C6 witness: a nonzero `weeksOnChart` outside the bound. -/
def w6Entry : ChartEntry :=
  { rank := 1, title := ['a'], artist := ['b'], weeksOnChart := some 10 }

/-- C6 witness: a nonzero out-of-bound `weeksOnChart` really is excluded. -/
theorem rangeFilter_spec_witness :
    scoreEntry w6Entry cex6Chart cex6Query 0 = none :=
  (rangeFilter_spec cex6Query w6Entry cex6Chart 0).1 { min := 1, max := 5 } 10
    (by decide) (by decide) (by decide) (by decide)

theorem getTruthy_none : getTruthy none = none := rfl

/-- Chart for the C7 counterexample and witness. -/
def cex7Chart : ChartData := { entries := [{ rank := 1, title := ['a'], artist := ['b'] }] }

/-- C7 counterexample: with `limit: 0` supplied, the claim demands a result
list of length `min 0 (#passing) = 0`, but `query.limit ? ... : ...` treats
the number 0 as falsy and returns the full (length-1) list unsliced. -/
theorem limit_zero_counterexample :
    ({ limit := some 0 } : SearchQuery).limit = some 0
    ∧ (search [cex7Chart] { limit := some 0 } 0).length = 1
    ∧ min 0 (search [cex7Chart] ({ limit := some 0 } : SearchQuery) 0).length = 0 := by
  refine ⟨rfl, ?_, by simp⟩
  norm_num +decide [search, searchSorted, searchResults, getRelevantCharts, chartPasses,
    scoreEntry, rankRejects, weeksRejects, peakRejects, newEntriesRejects, getTruthy,
    numTruthy, recencyBoost, max_def, cex7Chart,
    List.filterMap_cons, List.filterMap_nil, List.filter_cons, List.filter_nil]

/-- C7 (amended): the result list of `search` is always sorted by
non-increasing score, and for a *nonzero* limit `L` it consists of the first
`L` elements of the full sorted result sequence of the same query without a
limit — in particular its length is `min L (#passing entries)`.  (A limit of
`0` is falsy in JS and applies no slicing, which is what the counterexample
forces the claim to exclude.) -/
theorem search_sorted_limit (cache : List ChartData) (q : SearchQuery) (now : Int) :
    (search cache q now).Sorted (fun a b => b.score ≤ a.score)
    ∧ (∀ L, q.limit = some L → L ≠ 0 →
        search cache q now = (search cache { q with limit := none } now).take L
        ∧ (search cache q now).length
            = min L (search cache { q with limit := none } now).length) := by
  have htrans : ∀ a b c : SearchResult,
      (fun a b : SearchResult => decide (b.score ≤ a.score)) a b = true →
      (fun a b : SearchResult => decide (b.score ≤ a.score)) b c = true →
      (fun a b : SearchResult => decide (b.score ≤ a.score)) a c = true := by
    intro a b c h1 h2
    simp only [decide_eq_true_eq] at h1 h2 ⊢
    exact le_trans h2 h1
  have htotal : ∀ a b : SearchResult,
      ((fun a b : SearchResult => decide (b.score ≤ a.score)) a b
        || (fun a b : SearchResult => decide (b.score ≤ a.score)) b a) = true := by
    intro a b
    simp only [Bool.or_eq_true, decide_eq_true_eq]
    exact le_total b.score a.score
  have hsorted : (searchSorted cache q now).Pairwise
      (fun a b : SearchResult => b.score ≤ a.score) := by
    have h0 := @List.sorted_mergeSort SearchResult
      (fun a b : SearchResult => decide (b.score ≤ a.score)) htrans htotal
      (searchResults cache q now)
    exact h0.imp fun h => of_decide_eq_true h
  have hqs : searchSorted cache { q with limit := none } now = searchSorted cache q now := rfl
  refine ⟨?_, ?_⟩
  · cases hq : q.limit with
    | none =>
      simp only [search, hq]
      exact hsorted
    | some L =>
      simp only [search, hq]
      cases hL : (L != 0) with
      | false =>
        simp only [Bool.false_eq_true, if_false]
        exact hsorted
      | true =>
        simp only [if_true]
        exact hsorted.sublist (List.take_sublist L _)
  · intro L hL hL0
    have hbne : (L != 0) = true := by simpa using hL0
    constructor
    · simp only [search, hL, hbne, if_true]
      rw [hqs]
    · simp only [search, hL, hbne, if_true]
      rw [hqs, List.length_take]

/-- Query with limit 1 for the C7 witness. -/
def w7Query : SearchQuery := { limit := some 1 }

/-- C7 witness: the nonzero-limit conclusion at concrete data. -/
theorem search_sorted_limit_witness :
    search [cex7Chart] w7Query 0 = (search [cex7Chart] { w7Query with limit := none } 0).take 1
    ∧ (search [cex7Chart] w7Query 0).length
        = min 1 (search [cex7Chart] { w7Query with limit := none } 0).length :=
  (search_sorted_limit [cex7Chart] w7Query 0).2 1 rfl (by decide)

/-- Chart for the C8 counterexample: a Billboard chart with a rank-1 entry. -/
def cex8Chart : ChartData :=
  { source := ChartSource.billboard, entries := [{ rank := 1, title := ['a'], artist := ['b'] }] }

/-- Query for the C8 counterexample: no text, range, or new-entry filters,
but a `source` filter that the chart does not match. -/
def cex8Query : SearchQuery := { source := some ChartSource.lastfm }

/-- C8 counterexample: the query has no title/artist/album text filters, no
rank/weeks/peak ranges, and `newEntriesOnly` unset, yet the indexed rank-1
entry does not appear in the (unlimited) result list, because the query's
chart-level `source` filter removes the whole chart before scoring. -/
theorem source_filter_counterexample :
    cex8Query.title = none ∧ cex8Query.artist = none ∧ cex8Query.album = none
    ∧ cex8Query.rankRange = none ∧ cex8Query.weeksRange = none ∧ cex8Query.peakRange = none
    ∧ cex8Query.newEntriesOnly = false ∧ cex8Query.limit = none
    ∧ (cex8Chart.entries.map fun e => e.rank) = [1]
    ∧ search [cex8Chart] cex8Query 0 = [] := by
  refine ⟨rfl, rfl, rfl, rfl, rfl, rfl, rfl, rfl, by decide, ?_⟩
  simp [search, searchSorted, searchResults, getRelevantCharts, chartPasses,
    cex8Query, cex8Chart, getTruthy_none]

/-- For a query with no entry-level filters and no text filters, `scoreEntry`
reduces to the position boost plus the recency boost. -/
theorem scoreEntry_plain (q : SearchQuery) (e : ChartEntry) (chart : ChartData) (now : Int)
    (ht : q.title = none) (ha : q.artist = none) (hal : q.album = none)
    (hr : q.rankRange = none) (hw : q.weeksRange = none) (hp : q.peakRange = none)
    (hne : q.newEntriesOnly = false) :
    scoreEntry e chart q now
      = (if ((101 : ℚ) - e.rank) / 100 + recencyBoost chart now = 0 then none
         else some { entry := e, chartData := chart,
                     score := ((101 : ℚ) - e.rank) / 100 + recencyBoost chart now,
                     matchList := [] }) := by
  have h1 : rankRejects q e = false := by simp [rankRejects, hr]
  have h2 : weeksRejects q e = false := by simp [weeksRejects, hw]
  have h3 : peakRejects q e = false := by simp [peakRejects, hp]
  have h4 : newEntriesRejects q e = false := by simp [newEntriesRejects, hne]
  simp [scoreEntry, h1, h2, h3, h4, ht, ha, hal, getTruthy_none]

/-- The recency boost is never negative. -/
theorem recencyBoost_nonneg (chart : ChartData) (now : Int) :
    0 ≤ recencyBoost chart now := by
  simp only [recencyBoost]
  exact le_max_left 0 _

/-- C8 (amended): for a query with no text filters, no range filters,
`newEntriesOnly` unset, no limit, *and no chart-level `source`/`chartType`/
`dateRange` filters*, every indexed entry with rank between 1 and 100
appears in the result list, and of two scored entries of the same chart the
one with the smaller rank gets the strictly higher score.  (The
counterexample forces the extra chart-level-filter hypotheses: a `source`
filter can remove a chart wholesale.) -/
theorem position_boost_spec (cache : List ChartData) (q : SearchQuery) (now : Int)
    (ht : q.title = none) (ha : q.artist = none) (hal : q.album = none)
    (hr : q.rankRange = none) (hw : q.weeksRange = none) (hp : q.peakRange = none)
    (hne : q.newEntriesOnly = false) (hl : q.limit = none)
    (hs : q.source = none) (hct : q.chartType = none) (hd : q.dateRange = none) :
    (∀ chart ∈ cache, ∀ e ∈ chart.entries, 1 ≤ e.rank → e.rank ≤ 100 →
        ∃ r ∈ search cache q now, r.entry = e ∧ r.chartData = chart)
    ∧ (∀ chart e1 e2 r1 r2, scoreEntry e1 chart q now = some r1 →
        scoreEntry e2 chart q now = some r2 → e1.rank < e2.rank →
        r2.score < r1.score) := by
  constructor
  · intro chart hc e he h1 h100
    have hcast : (e.rank : ℚ) ≤ 100 := by exact_mod_cast h100
    have hpos : 0 < ((101 : ℚ) - e.rank) / 100 + recencyBoost chart now := by
      have hb : (0 : ℚ) < ((101 : ℚ) - e.rank) / 100 := by
        apply div_pos
        · linarith
        · norm_num
      have := recencyBoost_nonneg chart now
      linarith
    have hsome : scoreEntry e chart q now
        = some { entry := e, chartData := chart,
                 score := ((101 : ℚ) - e.rank) / 100 + recencyBoost chart now,
                 matchList := [] } := by
      rw [scoreEntry_plain q e chart now ht ha hal hr hw hp hne, if_neg (ne_of_gt hpos)]
    have hsearch : search cache q now
        = (searchResults cache q now).mergeSort
            (fun a b : SearchResult => decide (b.score ≤ a.score)) := by
      simp [search, searchSorted, hl]
    refine ⟨{ entry := e, chartData := chart,
              score := ((101 : ℚ) - e.rank) / 100 + recencyBoost chart now,
              matchList := [] }, ?_, rfl, rfl⟩
    rw [hsearch, List.mem_mergeSort]
    have hpass : chartPasses q chart = true := by
      simp [chartPasses, hs, hct, hd, getTruthy_none]
    apply List.mem_flatMap.mpr
    refine ⟨chart, List.mem_filter.mpr ⟨hc, hpass⟩, ?_⟩
    apply List.mem_filterMap.mpr
    refine ⟨e, he, ?_⟩
    rw [hsome]
    simp only [if_pos hpos]
  · intro chart e1 e2 r1 r2 hs1 hs2 hlt
    rw [scoreEntry_plain q e1 chart now ht ha hal hr hw hp hne] at hs1
    rw [scoreEntry_plain q e2 chart now ht ha hal hr hw hp hne] at hs2
    by_cases hc1 : ((101 : ℚ) - e1.rank) / 100 + recencyBoost chart now = 0
    · rw [if_pos hc1] at hs1
      exact absurd hs1 (by simp)
    by_cases hc2 : ((101 : ℚ) - e2.rank) / 100 + recencyBoost chart now = 0
    · rw [if_neg hc1] at hs1
      rw [if_pos hc2] at hs2
      exact absurd hs2 (by simp)
    rw [if_neg hc1] at hs1
    rw [if_neg hc2] at hs2
    have hr1 : r1.score = ((101 : ℚ) - e1.rank) / 100 + recencyBoost chart now := by
      rw [← Option.some.inj hs1]
    have hr2 : r2.score = ((101 : ℚ) - e2.rank) / 100 + recencyBoost chart now := by
      rw [← Option.some.inj hs2]
    have hcast : (e1.rank : ℚ) < (e2.rank : ℚ) := by exact_mod_cast hlt
    have hdiv : ((101 : ℚ) - e2.rank) / 100 < ((101 : ℚ) - e1.rank) / 100 := by
      rw [div_eq_mul_inv, div_eq_mul_inv]
      apply mul_lt_mul_of_pos_right
      · linarith
      · norm_num
    rw [hr1, hr2]
    linarith

/-- Entry for the C8 witness. -/
def w8Entry : ChartEntry := { rank := 1, title := ['a'], artist := ['b'] }

/-- Chart for the C8 witness. -/
def w8Chart : ChartData := { entries := [w8Entry] }

/-- C8 witness: the rank-1 entry of the only chart appears in the result
list of the fully unfiltered query. -/
theorem position_boost_spec_witness :
    ∃ r ∈ search [w8Chart] ({} : SearchQuery) 0, r.entry = w8Entry ∧ r.chartData = w8Chart :=
  (position_boost_spec [w8Chart] {} 0 rfl rfl rfl rfl rfl rfl rfl rfl rfl rfl rfl).1
    w8Chart (by simp) w8Entry (by simp [w8Chart]) (by decide) (by decide)

/-- C9: two successive calls of the `search` method with the same query, the
same clock reading, and the state left by the first call yield identical
ordered result lists; moreover the first call leaves the engine state
unchanged. -/
theorem search_idempotent (eng : SearchEngine) (q : SearchQuery) (now : Int) :
    ((eng.searchCall q now).2.searchCall q now).1 = (eng.searchCall q now).1
    ∧ (eng.searchCall q now).2 = eng :=
  ⟨rfl, rfl⟩

end BrickCharts
